import Mathlib

/-!
Verification of the ad-exchange decision engine (`src/engine.py`).

The numeric code is embedded over `ℚ` (the Python source computes with
floats, but every claim under check is about the algebraic formulas the
source writes down, so the exact-rational embedding is the faithful
reading).  Randomly drawn quantities (scorer outputs, estimator samples,
latencies, filter outcomes) are pluggable inputs per the spec, and are
therefore taken as explicit parameters of the embedded functions.
-/

namespace AdxEngine

/-- A bid as consumed by `ADX.run_auction` (engine.py lines 931-965): the
dict carries `bid_price`, `pctr`, `pcvr`, a floor price, and - by the time
the scoring loop has run - a definite quality factor `q_factor` (either the
value already present on the dict or the quality scorer output written back
at lines 948-955; the scorer draw is an input here). -/
structure Bid where
  dsp_id : String
  bid_price : ℚ
  pctr : ℚ
  pcvr : ℚ
  q_factor : ℚ
  floor_price : ℚ
deriving DecidableEq

/-- A bid after the eCPM-computation loop of `ADX.run_auction`
(engine.py lines 940-965) has stored `ecpm` and `original_ecpm` on it. -/
structure ScoredBid where
  dsp_id : String
  bid_price : ℚ
  pctr : ℚ
  pcvr : ℚ
  q_factor : ℚ
  floor_price : ℚ
  ecpm : ℚ
  original_ecpm : ℚ
deriving DecidableEq

/-- One iteration of the eCPM loop (engine.py lines 941-965):
`adjusted_ecpm = bid_price * pctr * pcvr * q_factor * 1000` and
`original_ecpm = bid_price * pctr * pcvr * 1000`. -/
def score_bid (b : Bid) : ScoredBid :=
  { dsp_id := b.dsp_id
    bid_price := b.bid_price
    pctr := b.pctr
    pcvr := b.pcvr
    q_factor := b.q_factor
    floor_price := b.floor_price
    ecpm := b.bid_price * b.pctr * b.pcvr * b.q_factor * 1000
    original_ecpm := b.bid_price * b.pctr * b.pcvr * 1000 }

/-- Stable descending insertion step (ties keep the earlier element first). -/
def insert_desc (b : ScoredBid) : List ScoredBid → List ScoredBid
  | [] => [b]
  | a :: rest => if b.ecpm < a.ecpm then a :: insert_desc b rest else b :: a :: rest

/-- The sort of engine.py line 968:
`sorted(bids, key=lambda x: x.get('ecpm', 0), reverse=True)`.
Python sorted is a stable sort, and the output of a stable sort is uniquely
determined by the key order, so this stable insertion sort computes exactly
the same list. -/
def sort_bids (l : List ScoredBid) : List ScoredBid := l.foldr insert_desc []

/-- The dict returned by `ADX.run_auction` (engine.py lines 1004-1017). -/
structure AuctionResult where
  winner : ScoredBid
  winner_bid : ℚ
  winner_ecpm : ℚ
  winner_pctr : ℚ
  winner_pcvr : ℚ
  second_best_bid : ℚ
  second_highest_ecpm : ℚ
  actual_paid_price : ℚ
  saved_amount : ℚ
  all_bids : List ScoredBid
  original_ecpm : ℚ
  has_competition : Bool
deriving DecidableEq

/-- Second-price clearing on the sorted bid list (engine.py lines 973-1017):
with a runner-up, `actual_paid_price =
min ((second_ecpm + 0.01) / (1000 * winner_pctr * winner_pcvr)) winner_bid`;
with a single bid the floor price is charged (clamped by the winner bid at
line 994); `saved_amount = max 0 (winner_bid - actual_paid_price)`. -/
def clear_sorted (winner : ScoredBid) (rest : List ScoredBid) : AuctionResult :=
  match rest with
  | second :: _ =>
    let actual_paid_price :=
      min ((second.ecpm + 1/100) / (1000 * winner.pctr * winner.pcvr)) winner.bid_price
    { winner := winner
      winner_bid := winner.bid_price
      winner_ecpm := winner.ecpm
      winner_pctr := winner.pctr
      winner_pcvr := winner.pcvr
      second_best_bid := second.bid_price
      second_highest_ecpm := second.ecpm
      actual_paid_price := actual_paid_price
      saved_amount := max 0 (winner.bid_price - actual_paid_price)
      all_bids := winner :: rest
      original_ecpm := winner.original_ecpm
      has_competition := true }
  | [] =>
    let actual_paid_price := min winner.floor_price winner.bid_price
    { winner := winner
      winner_bid := winner.bid_price
      winner_ecpm := winner.ecpm
      winner_pctr := winner.pctr
      winner_pcvr := winner.pcvr
      second_best_bid := winner.floor_price
      second_highest_ecpm := 0
      actual_paid_price := actual_paid_price
      saved_amount := max 0 (winner.bid_price - actual_paid_price)
      all_bids := [winner]
      original_ecpm := winner.original_ecpm
      has_competition := false }

/-- `ADX.run_auction` (engine.py lines 931-1017): `None` on an empty bid
set; otherwise score every bid, sort by adjusted eCPM descending, and clear
at the second price. -/
def run_auction (bids : List Bid) : Option AuctionResult :=
  if bids.isEmpty then none
  else
    match sort_bids (bids.map score_bid) with
    | [] => none
    | winner :: rest => some (clear_sorted winner rest)

/-- The first-maximal selection performed by the Python expression
`max(values.items(), key=lambda x: x[1])` (engine.py line 814): fold over
the later items, replacing the current best only on a strictly larger
value, so the earliest of several maximal entries wins. -/
def py_max_by_value (first : String × ℚ) (rest : List (String × ℚ)) : String × ℚ :=
  rest.foldl (fun best x => if best.2 < x.2 then x else best) first

/-- `InternalOpportunityManager.calculate_total_value` (engine.py lines
802-817): the items dict is built in insertion order ads, search, push and
the path with the highest value is selected; the function returns
`(v_total, selected_path)`. -/
def calculate_total_value (ecpm_ads ev_search ev_push : ℚ) : ℚ × String :=
  let selected := py_max_by_value ("ads", ecpm_ads) [("search", ev_search), ("push", ev_push)]
  (selected.2, selected.1)

/-- Python `str.upper()` restricted to the ASCII platform strings used by
the engine. -/
def str_to_upper (s : String) : String := String.mk (s.data.map Char.toUpper)

/-- `SKANOptimizer._initialize_conversion_mapping` (engine.py lines
605-611): linear map of the conversion value 0-63 to dollars 0-10. -/
def conversion_value_mapping (i : ℕ) : ℚ := (i : ℚ) / 63 * 10

/-- The optimization details built by `SKANOptimizer.estimate_pcvr_from_skan`
(engine.py lines 653-666), restricted to the numeric fields the claims
are about. -/
structure SkanEstimate where
  conversion_value : ℕ
  business_value : ℚ
  base_pcvr : ℚ
  adjusted_pcvr : ℚ
  confidence : ℚ
  historical_prob : ℚ
deriving DecidableEq

/-- `SKANOptimizer.estimate_pcvr_from_skan` (engine.py lines 613-679).
The randomly sampled conversion value and the current (mutable) historical
probability of that value are inputs; the simulated postback delay is
trace-only and omitted.  Non-iOS platforms get `none` (the source returns
`None, {}`).  `base_pcvr = 0.01 + (cv / 63) * 0.09`,
`confidence = min 1 (max 0.6 (historical_prob * 15))`,
`adjusted_pcvr = base_pcvr * (0.7 + confidence * 0.3)`. -/
def estimate_pcvr_from_skan (platform : String) (conversion_value : ℕ)
    (historical_prob : ℚ) : Option SkanEstimate :=
  if str_to_upper platform ≠ "IOS" then none
  else
    let business_value :=
      if conversion_value ≤ 63 then conversion_value_mapping conversion_value else 0
    let base_pcvr := 1/100 + ((conversion_value : ℚ) / 63) * (9/100)
    let confidence := min 1 (max (6/10) (historical_prob * 15))
    let adjusted_pcvr := base_pcvr * (7/10 + confidence * (3/10))
    some { conversion_value := conversion_value
           business_value := business_value
           base_pcvr := base_pcvr
           adjusted_pcvr := adjusted_pcvr
           confidence := confidence
           historical_prob := historical_prob }

/-- The pair `(passed, reason_code)` returned by `FilterRule.apply`
(engine.py line 70); the variable snapshot is trace-only and omitted.
A filter rule itself is embedded as a function from the request to its
outcome (the stochastic filters take their draws from the request
parameter). -/
structure FilterOutcome where
  passed : Bool
  reason_code : String
deriving DecidableEq

/-- `ADX.process_request` (engine.py lines 889-929): apply the configured
filters in list order, returning at the first rejection with that filter
reason code, else `(True, "ALL_FILTERS_PASSED")`. -/
def process_request {α : Type} (filters : List (α → FilterOutcome)) (req : α) :
    Bool × String :=
  match filters with
  | [] => (true, "ALL_FILTERS_PASSED")
  | f :: rest =>
    if (f req).passed then process_request rest req else (false, (f req).reason_code)

/-- The sequence of filter evaluations actually performed by
`ADX.process_request` (each `FilterRule.apply` call logs one trace record,
so this list is the per-filter trace record sequence). -/
def evaluated_outcomes {α : Type} (filters : List (α → FilterOutcome)) (req : α) :
    List FilterOutcome :=
  match filters with
  | [] => []
  | f :: rest =>
    if (f req).passed then f req :: evaluated_outcomes rest req else [f req]

/-- The filter classes registered by `AdExchangeEngine.setup_adx_filters`. -/
inductive AdxFilterTag where
  | blacklistCheck
  | sizeMatchCheck
  | latencyTimeoutCheck
  | creativeComplianceCheck
deriving DecidableEq

/-- The `name` attribute each filter class passes to the `FilterRule`
base constructor (engine.py lines 82, 162, 201, 275). -/
def filter_display_name : AdxFilterTag → String
  | .blacklistCheck => "BlacklistFilter"
  | .sizeMatchCheck => "SizeMatchFilter"
  | .latencyTimeoutCheck => "LatencyTimeoutFilter"
  | .creativeComplianceCheck => "CreativeMismatchFilter"

/-- `AdExchangeEngine.setup_adx_filters` (engine.py lines 1141-1153): the
chain is blacklist, size match, latency, creative compliance, in that
order; the floor-price check is deliberately not added to the chain (it is
applied per bid after bids are collected, engine.py line 1204). -/
def setup_adx_filters : List AdxFilterTag :=
  [.blacklistCheck, .sizeMatchCheck, .latencyTimeoutCheck, .creativeComplianceCheck]

/-- A bid dict as collected by `AdExchangeEngine.run_auction` (engine.py
lines 1205-1213): no `q_factor` key is present at this stage. -/
structure EngineBid where
  dsp_id : String
  bid_price : ℚ
  pctr : ℚ
  pcvr : ℚ
  floor_price : ℚ
deriving DecidableEq

/-- The bids handed to `ADX.run_auction` at engine.py line 1418: the same
dicts, on which the quality scorer (one stochastic draw per bid, here the
stream `qf`) fills in `q_factor` since the key is absent. -/
def collected_auction_bids (qf : ℕ → ℚ) (bids : List EngineBid) : List Bid :=
  bids.enum.map fun p =>
    { dsp_id := p.2.dsp_id
      bid_price := p.2.bid_price
      pctr := p.2.pctr
      pcvr := p.2.pcvr
      q_factor := qf p.1
      floor_price := p.2.floor_price }

/-- The maximum-eCPM loops at engine.py lines 1286-1291 and 1366-1371:
`q_factor = bid.get('q_factor', 1.0)` is always the default 1.0 here,
because the collected bid dicts carry no `q_factor` key before the
auction runs. -/
def max_ad_ecpm_of (bids : List EngineBid) : ℚ :=
  bids.foldl (fun acc b => max acc (b.bid_price * b.pctr * b.pcvr * 1 * 1000)) 0

/-- The latency-timeout loss estimate (engine.py lines 1293-1308): when the
computed maximum potential eCPM is 0 the default estimate
`0.5 * 0.02 * 0.05 * 1.0 * 1000 = 0.5` is substituted (and the follow-up
zero check at lines 1302 and 1307 can never fire after that). -/
def latency_potential_ecpm (bids : List EngineBid) : ℚ :=
  if max_ad_ecpm_of bids = 0 then 1/2 else max_ad_ecpm_of bids

/-- `max(all_bids, key=lambda x: x['bid_price'])['bid_price']` (engine.py
line 1349); 0 for an empty list (unreachable, the caller guards). -/
def highest_bid_price : List EngineBid → ℚ
  | [] => 0
  | b :: bs => bs.foldl (fun acc x => max acc x.bid_price) b.bid_price

/-- The result dict of `AdExchangeEngine.run_auction`, restricted to the
fields the claims are about.  Fields that a given return statement of the
source does not set are `none` / 0 (the source simply omits those dict
keys). -/
structure EngineResult where
  status : String
  reason : String
  selected_path : Option String := none
  bid_price : ℚ := 0
  actual_paid_price : Option ℚ := none
  saved_amount : Option ℚ := none
  potential_loss : Option ℚ := none
  opportunity_cost : Option ℚ := none
  auction : Option AuctionResult := none
deriving DecidableEq

/-- `TIMEOUT_THRESHOLD = 100` ms (engine.py line 1166). -/
def TIMEOUT_THRESHOLD : ℚ := 100

/-- The decision part of `AdExchangeEngine.run_auction` (engine.py lines
1280-1520), after bid collection and the content funnel.  Stochastic or
upstream-computed quantities are parameters: the request latency, the
collected (already floor-filtered) bids, the quality-scorer stream `qf`,
the lifecycle-adjusted organic value, and the outcome of the ADX filter
chain on the test request.  Branches in source order: latency timeout,
no valid bids, filter rejection, opportunity-cost rejection
(`organic >= max_ad_value and max_ad_value > 0`), then the auction. -/
def engine_run_auction (latency_ms : ℚ) (all_bids : List EngineBid) (qf : ℕ → ℚ)
    (organic_ltv_adjusted : ℚ) (filters_pass : Bool) (filter_reason : String) :
    EngineResult :=
  if TIMEOUT_THRESHOLD < latency_ms then
    { status := "REJECTED"
      reason := "LATENCY_TIMEOUT"
      potential_loss := some (latency_potential_ecpm all_bids) }
  else if all_bids.isEmpty then
    { status := "REJECTED", reason := "NO_VALID_BIDS" }
  else if filters_pass = false then
    { status := "REJECTED"
      reason := filter_reason
      bid_price := highest_bid_price all_bids }
  else if organic_ltv_adjusted ≥ max_ad_ecpm_of all_bids / 1000 ∧
      0 < max_ad_ecpm_of all_bids / 1000 then
    { status := "REJECTED"
      reason := "ORGANIC_LTV_HIGHER"
      selected_path := some "search"
      opportunity_cost := some (organic_ltv_adjusted - max_ad_ecpm_of all_bids / 1000) }
  else
    match run_auction (collected_auction_bids qf all_bids) with
    | some ar =>
      { status := "ACCEPTED"
        reason := "AUCTION_WON"
        selected_path := some "ads"
        bid_price := ar.winner_bid
        actual_paid_price := some ar.actual_paid_price
        saved_amount := some ar.saved_amount
        opportunity_cost := some (ar.winner_ecpm / 1000 - organic_ltv_adjusted)
        auction := some ar }
    | none => { status := "REJECTED", reason := "AUCTION_FAILED" }

/-- Concrete bid used by witnesses: the first bid of the spec section 8
worked example (price 0.5, pCTR 0.02, pCVR 0.05, q 1.0, floor 0.1);
its adjusted eCPM is 0.5. -/
def bid_half : Bid :=
  { dsp_id := "DSP_1", bid_price := 1/2, pctr := 1/50, pcvr := 1/20
    q_factor := 1, floor_price := 1/10 }

/-- Concrete bid used by witnesses: the second bid of the spec section 8
worked example (price 0.3, pCTR 0.04, pCVR 0.05, q 1.0, floor 0.1);
its adjusted eCPM is 0.6, so it wins against `bid_half`. -/
def bid_alt : Bid :=
  { dsp_id := "DSP_2", bid_price := 3/10, pctr := 1/25, pcvr := 1/20
    q_factor := 1, floor_price := 1/10 }

/-- Concrete engine-level bid with positive eCPM, used by witnesses. -/
def engine_bid_pos : EngineBid :=
  { dsp_id := "DSP_1", bid_price := 1/2, pctr := 1/50, pcvr := 1/20, floor_price := 1/10 }

/-- Concrete engine-level bid with zero eCPM (pCTR 0), used by witnesses. -/
def engine_bid_zero : EngineBid :=
  { dsp_id := "DSP_1", bid_price := 1/2, pctr := 0, pcvr := 1/20, floor_price := 1/10 }

/-- Concrete always-passing filter used by witnesses. -/
def pass_blacklist : ℕ → FilterOutcome :=
  fun _ => { passed := true, reason_code := "NOT_IN_BLACKLIST" }

/-- Concrete rejecting filter used by witnesses. -/
def reject_size : ℕ → FilterOutcome :=
  fun _ => { passed := false, reason_code := "SIZE_MISMATCH" }

/-- Concrete always-passing filter used by witnesses (never reached). -/
def pass_latency : ℕ → FilterOutcome :=
  fun _ => { passed := true, reason_code := "LATENCY_OK" }

/-- Concrete SKAN estimate produced at conversion value 0 and historical
probability 0: confidence clamps to 0.6, the blend gives
0.01 * (0.7 + 0.6 * 0.3) = 0.0088. -/
def skan_example : SkanEstimate :=
  { conversion_value := 0, business_value := 0, base_pcvr := 1/100
    adjusted_pcvr := 11/1250, confidence := 3/5, historical_prob := 0 }

theorem insert_desc_perm (b : ScoredBid) (l : List ScoredBid) :
    (insert_desc b l).Perm (b :: l) := by
  induction l with
  | nil => rfl
  | cons a rest ih =>
    unfold insert_desc
    by_cases h : b.ecpm < a.ecpm
    · simp only [h, if_true]
      exact (ih.cons a).trans (List.Perm.swap b a rest)
    · simp [h]

theorem sort_bids_perm (l : List ScoredBid) : (sort_bids l).Perm l := by
  induction l with
  | nil => rfl
  | cons a rest ih =>
    have : sort_bids (a :: rest) = insert_desc a (sort_bids rest) := rfl
    rw [this]
    exact (insert_desc_perm a (sort_bids rest)).trans (ih.cons a)

theorem sort_bids_length (l : List ScoredBid) :
    (sort_bids l).length = l.length :=
  (sort_bids_perm l).length_eq

theorem mem_of_mem_sort_bids {b : ScoredBid} {l : List ScoredBid}
    (h : b ∈ sort_bids l) : b ∈ l :=
  (sort_bids_perm l).mem_iff.mp h

theorem run_auction_of_sorted {bids : List Bid} {w : ScoredBid}
    {rest : List ScoredBid} (hne : bids ≠ [])
    (hs : sort_bids (bids.map score_bid) = w :: rest) :
    run_auction bids = some (clear_sorted w rest) := by
  unfold run_auction
  rw [hs]
  simp [List.isEmpty_iff, hne]

theorem run_auction_some_of_ne_nil {bids : List Bid} (hne : bids ≠ []) :
    ∃ w rest, sort_bids (bids.map score_bid) = w :: rest ∧
      run_auction bids = some (clear_sorted w rest) := by
  cases hs : sort_bids (bids.map score_bid) with
  | nil =>
    exfalso
    have hlen := sort_bids_length (bids.map score_bid)
    rw [hs] at hlen
    simp only [List.length_nil, List.length_map] at hlen
    exact hne (List.length_eq_zero.mp hlen.symm)
  | cons w rest =>
    exact ⟨w, rest, rfl, run_auction_of_sorted hne hs⟩

theorem run_auction_some_inv {bids : List Bid} {r : AuctionResult}
    (h : run_auction bids = some r) :
    ∃ w rest, sort_bids (bids.map score_bid) = w :: rest ∧
      r = clear_sorted w rest := by
  rcases eq_or_ne bids [] with hb | hb
  · subst hb
    simp [run_auction] at h
  · obtain ⟨w, rest, hs, hsome⟩ := run_auction_some_of_ne_nil hb
    refine ⟨w, rest, hs, ?_⟩
    rw [h] at hsome
    exact Option.some_injective _ hsome

/-- C1: every bid reported by `ADX.run_auction` (in the returned
`all_bids` list, and the reported winner eCPM) carries
`ecpm = bid_price * pctr * pcvr * q_factor * 1000` exactly. -/
theorem auction_reports_adjusted_ecpm_formula (bids : List Bid) (r : AuctionResult)
    (b : ScoredBid) (h : run_auction bids = some r) (hb : b ∈ r.all_bids) :
    b.ecpm = b.bid_price * b.pctr * b.pcvr * b.q_factor * 1000 ∧
    r.winner_ecpm =
      r.winner.bid_price * r.winner.pctr * r.winner.pcvr * r.winner.q_factor * 1000 := by
  obtain ⟨w, rest, hs, hr⟩ := run_auction_some_inv h
  subst hr
  have hall : (clear_sorted w rest).all_bids = w :: rest := by
    cases rest <;> simp [clear_sorted]
  have hwinner : (clear_sorted w rest).winner = w := by
    cases rest <;> simp [clear_sorted]
  have hwecpm : (clear_sorted w rest).winner_ecpm = w.ecpm := by
    cases rest <;> simp [clear_sorted]
  have hmem : ∀ x ∈ w :: rest,
      x.ecpm = x.bid_price * x.pctr * x.pcvr * x.q_factor * 1000 := by
    intro x hx
    have hx2 : x ∈ bids.map score_bid := mem_of_mem_sort_bids (hs ▸ hx)
    obtain ⟨a, _, rfl⟩ := List.mem_map.mp hx2
    simp [score_bid]
  constructor
  · exact hmem b (hall ▸ hb)
  · rw [hwecpm, hwinner]
    exact hmem w (List.mem_cons_self w rest)

/-- C1 witness: the formula instantiated on a concrete single-bid auction. -/
theorem auction_reports_adjusted_ecpm_formula_witness :
    (score_bid bid_half).ecpm =
      (score_bid bid_half).bid_price * (score_bid bid_half).pctr *
        (score_bid bid_half).pcvr * (score_bid bid_half).q_factor * 1000 ∧
    (clear_sorted (score_bid bid_half) []).winner_ecpm =
      (clear_sorted (score_bid bid_half) []).winner.bid_price *
        (clear_sorted (score_bid bid_half) []).winner.pctr *
        (clear_sorted (score_bid bid_half) []).winner.pcvr *
        (clear_sorted (score_bid bid_half) []).winner.q_factor * 1000 :=
  auction_reports_adjusted_ecpm_formula [bid_half] (clear_sorted (score_bid bid_half) [])
    (score_bid bid_half) rfl (by simp [clear_sorted])

/-- C2 (code bug evaluation): a single bid with price 0.5 above the floor
0.1 clears at the floor price, yet the reported `saved_amount` is 0.4,
not 0, although `has_competition` is false - contradicting the spec and
the source comments at engine.py lines 1000-1002. -/
theorem single_bid_saved_amount_eval :
    run_auction [bid_half] = some (clear_sorted (score_bid bid_half) []) ∧
    (clear_sorted (score_bid bid_half) []).actual_paid_price = 1/10 ∧
    (clear_sorted (score_bid bid_half) []).saved_amount = 2/5 ∧
    (clear_sorted (score_bid bid_half) []).has_competition = false := by
  refine ⟨rfl, ?_, ?_, rfl⟩
  · norm_num [clear_sorted, score_bid, bid_half]
  · norm_num [clear_sorted, score_bid, bid_half]

/-- C3 counterexample: two identical competing bids (price 0.5, pCTR 0.02,
pCVR 0.05, q 1.0).  The runner-up second-price charge
(0.5 + 0.01) / (1000 * 0.02 * 0.05) = 0.51 exceeds the winning bid 0.5,
is clamped to it, and `saved_amount = 0` despite 2 bids. -/
theorem two_equal_bids_saved_amount_zero :
    ([bid_half, bid_half] : List Bid).length = 2 ∧
    run_auction [bid_half, bid_half] =
      some (clear_sorted (score_bid bid_half) [score_bid bid_half]) ∧
    (clear_sorted (score_bid bid_half) [score_bid bid_half]).saved_amount = 0 ∧
    (clear_sorted (score_bid bid_half) [score_bid bid_half]).has_competition = true := by
  refine ⟨rfl, ?_, ?_, rfl⟩
  · norm_num [run_auction, sort_bids, insert_desc, score_bid, bid_half]
  · norm_num [clear_sorted, score_bid, bid_half]

/-- C3 (amended): the saved amount reported by `ADX.run_auction` equals
the winning bid price minus the cleared price and is never negative. -/
theorem saved_amount_eq_winner_minus_cleared (bids : List Bid) (r : AuctionResult)
    (h : run_auction bids = some r) :
    r.saved_amount = r.winner_bid - r.actual_paid_price ∧ 0 ≤ r.saved_amount := by
  obtain ⟨w, rest, hs, hr⟩ := run_auction_some_inv h
  subst hr
  cases rest with
  | nil =>
    have h0 : 0 ≤ w.bid_price - min w.floor_price w.bid_price :=
      sub_nonneg.mpr (min_le_right _ _)
    simp only [clear_sorted]
    exact ⟨max_eq_right h0, le_max_left _ _⟩
  | cons s rest2 =>
    have h0 : 0 ≤ w.bid_price -
        min ((s.ecpm + 1/100) / (1000 * w.pctr * w.pcvr)) w.bid_price :=
      sub_nonneg.mpr (min_le_right _ _)
    simp only [clear_sorted]
    exact ⟨max_eq_right h0, le_max_left _ _⟩

/-- C3 witness: the amended saving identity on the spec section 8 worked
example (winner eCPM 0.6, runner-up eCPM 0.5). -/
theorem saved_amount_eq_winner_minus_cleared_witness :
    (clear_sorted (score_bid bid_alt) [score_bid bid_half]).saved_amount =
      (clear_sorted (score_bid bid_alt) [score_bid bid_half]).winner_bid -
        (clear_sorted (score_bid bid_alt) [score_bid bid_half]).actual_paid_price ∧
    0 ≤ (clear_sorted (score_bid bid_alt) [score_bid bid_half]).saved_amount :=
  saved_amount_eq_winner_minus_cleared [bid_half, bid_alt]
    (clear_sorted (score_bid bid_alt) [score_bid bid_half])
    (by norm_num [run_auction, sort_bids, insert_desc, score_bid, bid_half, bid_alt])

/-- C7: `ADX.run_auction` returns `None` exactly on the empty bid set. -/
theorem run_auction_none_iff_empty (bids : List Bid) :
    run_auction bids = none ↔ bids = [] := by
  constructor
  · intro h
    by_contra hne
    obtain ⟨w, rest, hs, hsome⟩ := run_auction_some_of_ne_nil hne
    rw [h] at hsome
    exact Option.noConfusion hsome
  · rintro rfl
    rfl

/-- C5: with at least two well-formed bids (nonnegative price and quality
factor, positive probability estimates) the cleared price lies between 0
and the winning bid price. -/
theorem cleared_price_bounds (bids : List Bid) (r : AuctionResult)
    (hlen : 2 ≤ bids.length)
    (hwf : ∀ b ∈ bids, 0 ≤ b.bid_price ∧ 0 < b.pctr ∧ 0 < b.pcvr ∧ 0 ≤ b.q_factor)
    (h : run_auction bids = some r) :
    0 ≤ r.actual_paid_price ∧ r.actual_paid_price ≤ r.winner_bid := by
  obtain ⟨w, rest, hs, hr⟩ := run_auction_some_inv h
  subst hr
  have hlen2 : (w :: rest).length = bids.length := by
    rw [← hs, sort_bids_length, List.length_map]
  cases rest with
  | nil =>
    exfalso
    simp only [List.length_cons, List.length_nil] at hlen2
    omega
  | cons s rest2 =>
    have hw : w ∈ bids.map score_bid :=
      mem_of_mem_sort_bids (hs ▸ List.mem_cons_self _ _)
    have hsmem : s ∈ bids.map score_bid :=
      mem_of_mem_sort_bids (hs ▸ (by simp))
    obtain ⟨a, ha, hweq⟩ := List.mem_map.mp hw
    obtain ⟨a2, ha2, hseq⟩ := List.mem_map.mp hsmem
    obtain ⟨hpa, hpctr, hpcvr, hq⟩ := hwf a ha
    obtain ⟨hpa2, hpctr2, hpcvr2, hq2⟩ := hwf a2 ha2
    have hsecpm : 0 ≤ s.ecpm := by
      rw [← hseq]
      simp only [score_bid]
      have h1 : (0:ℚ) ≤ a2.bid_price * a2.pctr * a2.pcvr * a2.q_factor :=
        mul_nonneg (mul_nonneg (mul_nonneg hpa2 hpctr2.le) hpcvr2.le) hq2
      positivity
    have hwp : 0 < w.pctr := by rw [← hweq]; simpa [score_bid] using hpctr
    have hwv : 0 < w.pcvr := by rw [← hweq]; simpa [score_bid] using hpcvr
    have hwb : 0 ≤ w.bid_price := by rw [← hweq]; simpa [score_bid] using hpa
    have hquot : 0 < (s.ecpm + 1/100) / (1000 * w.pctr * w.pcvr) := by
      apply div_pos (by linarith)
      positivity
    simp only [clear_sorted]
    exact ⟨le_min hquot.le hwb, min_le_right _ _⟩

/-- C5 witness: the bounds on the spec section 8 worked example, where the
cleared price is 0.255 and the winning bid 0.3. -/
theorem cleared_price_bounds_witness :
    0 ≤ (clear_sorted (score_bid bid_alt) [score_bid bid_half]).actual_paid_price ∧
    (clear_sorted (score_bid bid_alt) [score_bid bid_half]).actual_paid_price ≤
      (clear_sorted (score_bid bid_alt) [score_bid bid_half]).winner_bid :=
  cleared_price_bounds [bid_half, bid_alt]
    (clear_sorted (score_bid bid_alt) [score_bid bid_half])
    (by norm_num)
    (by
      intro b hb
      simp only [List.mem_cons, List.not_mem_nil, or_false] at hb
      rcases hb with rfl | rfl <;> norm_num [bid_half, bid_alt])
    (by norm_num [run_auction, sort_bids, insert_desc, score_bid, bid_half, bid_alt])

/-- C4 counterexample: on the tie `route(1.0, 1.0, 0.5)` the source router
`InternalOpportunityManager.calculate_total_value` selects the ads path,
not the organic (search) path claimed by the spec: the items dict starts
with ads and Python max keeps the first maximal entry. -/
theorem router_tie_selects_ads_not_search :
    (calculate_total_value 1 1 (1/2)).2 = "ads" ∧
    (calculate_total_value 1 1 (1/2)).2 ≠ "search" := by
  have h : (calculate_total_value 1 1 (1/2)).2 = "ads" := by
    norm_num [calculate_total_value, py_max_by_value]
  refine ⟨h, ?_⟩
  rw [h]
  decide

/-- C4 (amended): the router selects the outlet with the maximum of the
three values and returns that maximum; ties between the ad value and the
organic value are resolved in favor of the ads outlet (first-maximal
selection over the insertion order ads, search, push). -/
theorem router_argmax_tie_prefers_ads (a s p : ℚ) :
    (calculate_total_value a s p).1 = max a (max s p) ∧
    (s ≤ a → p ≤ a → (calculate_total_value a s p).2 = "ads") ∧
    (a < s → p ≤ s → (calculate_total_value a s p).2 = "search") ∧
    (a < p → s < p → (calculate_total_value a s p).2 = "push") := by
  rcases le_or_lt s a with h1 | h1
  · rcases le_or_lt p a with h2 | h2
    · have he : calculate_total_value a s p = (a, "ads") := by
        simp [calculate_total_value, py_max_by_value, not_lt.mpr h1, not_lt.mpr h2]
      rw [he]
      exact ⟨(max_eq_left (max_le h1 h2)).symm, fun _ _ => rfl,
        fun hs2 _ => absurd hs2 (not_lt.mpr h1), fun hp2 _ => absurd hp2 (not_lt.mpr h2)⟩
    · have he : calculate_total_value a s p = (p, "push") := by
        simp [calculate_total_value, py_max_by_value, not_lt.mpr h1, h2]
      rw [he]
      refine ⟨?_, fun _ hpa => absurd h2 (not_lt.mpr hpa),
        fun hs2 _ => absurd hs2 (not_lt.mpr h1), fun _ _ => rfl⟩
      rw [max_eq_right (h1.trans h2.le), max_eq_right h2.le]
  · rcases le_or_lt p s with h2 | h2
    · have he : calculate_total_value a s p = (s, "search") := by
        simp [calculate_total_value, py_max_by_value, h1, not_lt.mpr h2]
      rw [he]
      refine ⟨?_, fun hsa _ => absurd h1 (not_lt.mpr hsa), fun _ _ => rfl,
        fun _ hsp => absurd hsp (not_lt.mpr h2)⟩
      rw [max_eq_left h2, max_eq_right h1.le]
    · have he : calculate_total_value a s p = (p, "push") := by
        simp [calculate_total_value, py_max_by_value, h1, h2]
      rw [he]
      refine ⟨?_, fun hsa _ => absurd h1 (not_lt.mpr hsa),
        fun _ hps => absurd h2 (not_lt.mpr hps), fun _ _ => rfl⟩
      rw [max_eq_right h2.le, max_eq_right (h1.trans h2).le]

/-- C4 witness: the amended tie rule instantiated at the spec example
inputs (1.0, 1.0, 0.5), selecting ads. -/
theorem router_argmax_tie_prefers_ads_witness :
    (1:ℚ) ≤ 1 ∧ (calculate_total_value 1 1 (1/2)).2 = "ads" :=
  ⟨le_refl 1, (router_argmax_tie_prefers_ads 1 1 (1/2)).2.1 (le_refl 1) (by norm_num)⟩

theorem process_request_append_pass {α : Type} (pre rest : List (α → FilterOutcome))
    (req : α) :
    (∀ g ∈ pre, (g req).passed = true) →
      process_request (pre ++ rest) req = process_request rest req := by
  induction pre with
  | nil => intro _; rfl
  | cons g pre ih =>
    intro hpre
    have hg := hpre g (List.mem_cons_self g pre)
    simp only [List.cons_append, process_request, hg, if_true]
    exact ih (fun x hx => hpre x (List.mem_cons_of_mem g hx))

theorem evaluated_outcomes_append_pass {α : Type} (pre rest : List (α → FilterOutcome))
    (req : α) :
    (∀ g ∈ pre, (g req).passed = true) →
      evaluated_outcomes (pre ++ rest) req =
        pre.map (fun g => g req) ++ evaluated_outcomes rest req := by
  induction pre with
  | nil => intro _; rfl
  | cons g pre ih =>
    intro hpre
    have hg := hpre g (List.mem_cons_self g pre)
    simp only [List.cons_append, evaluated_outcomes, hg, if_true, List.map_cons]
    exact congrArg (fun l => g req :: l) (ih (fun x hx => hpre x (List.mem_cons_of_mem g hx)))

/-- C6: the admission chain runs its filters in the configured list order
(blacklist, size match, latency, creative compliance, with the floor-price
check deliberately applied after bid collection), evaluates nothing after
the first rejecting filter, and returns that filter reason code. -/
theorem filter_chain_short_circuit {α : Type} (pre post : List (α → FilterOutcome))
    (f : α → FilterOutcome) (req : α)
    (hpre : ∀ g ∈ pre, (g req).passed = true) (hf : (f req).passed = false) :
    process_request (pre ++ f :: post) req = (false, (f req).reason_code) ∧
    evaluated_outcomes (pre ++ f :: post) req = pre.map (fun g => g req) ++ [f req] ∧
    setup_adx_filters.map filter_display_name =
      ["BlacklistFilter", "SizeMatchFilter", "LatencyTimeoutFilter",
        "CreativeMismatchFilter"] := by
  refine ⟨?_, ?_, rfl⟩
  · rw [process_request_append_pass pre (f :: post) req hpre]
    simp [process_request, hf]
  · rw [evaluated_outcomes_append_pass pre (f :: post) req hpre]
    simp [evaluated_outcomes, hf]

/-- C6 witness: a concrete three-filter chain whose second filter rejects;
the third filter is never evaluated. -/
theorem filter_chain_short_circuit_witness :
    process_request ([pass_blacklist] ++ reject_size :: [pass_latency]) 0 =
      (false, (reject_size 0).reason_code) ∧
    evaluated_outcomes ([pass_blacklist] ++ reject_size :: [pass_latency]) 0 =
      [pass_blacklist].map (fun g => g 0) ++ [reject_size 0] ∧
    setup_adx_filters.map filter_display_name =
      ["BlacklistFilter", "SizeMatchFilter", "LatencyTimeoutFilter",
        "CreativeMismatchFilter"] :=
  filter_chain_short_circuit [pass_blacklist] [pass_latency] reject_size 0
    (by
      intro g hg
      simp only [List.mem_singleton] at hg
      subst hg
      rfl)
    rfl

/-- C8: on an iOS request the SKAN confidence score lies in [0.6, 1.0] and
the adjusted conversion probability is the blend
`base_pcvr * (0.7 + 0.3 * confidence)`. -/
theorem skan_confidence_bounds_and_blend (platform : String) (cv : ℕ) (hp : ℚ)
    (r : SkanEstimate) (h : estimate_pcvr_from_skan platform cv hp = some r) :
    (6/10 ≤ r.confidence ∧ r.confidence ≤ 1) ∧
    r.adjusted_pcvr = r.base_pcvr * (7/10 + 3/10 * r.confidence) := by
  unfold estimate_pcvr_from_skan at h
  by_cases hc : str_to_upper platform ≠ "IOS"
  · rw [if_pos hc] at h
    exact Option.noConfusion h
  · rw [if_neg hc] at h
    dsimp only at h
    obtain rfl := Option.some_injective _ h
    refine ⟨⟨le_min (by norm_num) (le_max_left _ _), min_le_left _ _⟩, ?_⟩
    dsimp only
    ring

/-- C8 witness: the bounds and blend at platform iOS, conversion value 0
and historical probability 0. -/
theorem skan_confidence_bounds_and_blend_witness :
    (6/10 ≤ skan_example.confidence ∧ skan_example.confidence ≤ 1) ∧
    skan_example.adjusted_pcvr =
      skan_example.base_pcvr * (7/10 + 3/10 * skan_example.confidence) :=
  skan_confidence_bounds_and_blend "iOS" 0 0 skan_example (by
    unfold estimate_pcvr_from_skan
    rw [if_neg (by decide)]
    norm_num [conversion_value_mapping, skan_example])

/-- C9: whatever the inputs, the `selected_path` field of the pipeline
result, when present, is either search or ads; the push outlet is never
selected (the push expected value is computed for every request, but no
return statement ever sets `selected_path` to push). -/
theorem engine_selected_path_search_or_ads (latency_ms : ℚ) (bids : List EngineBid)
    (qf : ℕ → ℚ) (organic : ℚ) (fp : Bool) (freason : String) (p : String)
    (h : (engine_run_auction latency_ms bids qf organic fp freason).selected_path =
      some p) :
    p = "search" ∨ p = "ads" := by
  unfold engine_run_auction at h
  split_ifs at h <;> try simpa using h
  · simp at h
    exact Or.inl h.symm
  · rcases hr : run_auction (collected_auction_bids qf bids) with _ | ar <;>
      rw [hr] at h <;> simp at h
    exact Or.inr h.symm

/-- C9 witness: a concrete run routed to the search outlet. -/
theorem engine_selected_path_search_or_ads_witness :
    (engine_run_auction 50 [engine_bid_pos] (fun _ => 1) 5 true "UNUSED").selected_path =
      some "search" ∧ ("search" = "search" ∨ "search" = "ads") :=
  ⟨by norm_num [engine_run_auction, TIMEOUT_THRESHOLD, max_ad_ecpm_of, engine_bid_pos],
   engine_selected_path_search_or_ads 50 [engine_bid_pos] (fun _ => 1) 5 true "UNUSED"
     "search"
     (by norm_num [engine_run_auction, TIMEOUT_THRESHOLD, max_ad_ecpm_of, engine_bid_pos])⟩

theorem max_ad_ecpm_of_eq_zero (bids : List EngineBid) :
    (∀ b ∈ bids, b.bid_price * b.pctr * b.pcvr = 0) → max_ad_ecpm_of bids = 0 := by
  induction bids with
  | nil => intro _; rfl
  | cons b bs ih =>
    intro hz
    have hb := hz b (List.mem_cons_self b bs)
    unfold max_ad_ecpm_of at ih ⊢
    rw [List.foldl_cons]
    rw [show max 0 (b.bid_price * b.pctr * b.pcvr * 1 * 1000) = 0 from by
      rw [hb]; norm_num]
    exact ih (fun x hx => hz x (List.mem_cons_of_mem b hx))

theorem collected_auction_bids_ne_nil (qf : ℕ → ℚ) (bids : List EngineBid)
    (hne : bids ≠ []) : collected_auction_bids qf bids ≠ [] := by
  intro hnil
  have hlen := congrArg List.length hnil
  simp only [collected_auction_bids, List.length_map, List.enum_length,
    List.length_nil] at hlen
  exact hne (List.length_eq_zero.mp hlen)

/-- C10: when every collected bid has zero eCPM, the opportunity-cost gate
(`organic >= max_ad_value and max_ad_value > 0`) cannot select the organic
path, so an admitted request with bids proceeds to the auction and is
accepted on the ads path, even when the lifecycle-adjusted organic value
is positive (and hence exceeds the zero ad value). -/
theorem zero_ecpm_bids_proceed_to_auction (latency_ms : ℚ) (bids : List EngineBid)
    (qf : ℕ → ℚ) (organic : ℚ) (freason : String)
    (hlat : latency_ms ≤ 100) (hne : bids ≠ [])
    (hzero : ∀ b ∈ bids, b.bid_price * b.pctr * b.pcvr = 0)
    (_horg : 0 < organic) :
    (engine_run_auction latency_ms bids qf organic true freason).status = "ACCEPTED" ∧
    (engine_run_auction latency_ms bids qf organic true freason).selected_path =
      some "ads" := by
  have hmax : max_ad_ecpm_of bids = 0 := max_ad_ecpm_of_eq_zero bids hzero
  have hc1 : ¬ TIMEOUT_THRESHOLD < latency_ms := by
    unfold TIMEOUT_THRESHOLD
    exact not_lt.mpr hlat
  have hc2 : ¬ bids.isEmpty = true := by
    simpa [List.isEmpty_iff] using hne
  have hc4 : ¬ (organic ≥ max_ad_ecpm_of bids / 1000 ∧
      0 < max_ad_ecpm_of bids / 1000) := by
    rw [hmax]
    norm_num
  obtain ⟨w, rest, hs, hsome⟩ :=
    run_auction_some_of_ne_nil (collected_auction_bids_ne_nil qf bids hne)
  unfold engine_run_auction
  rw [if_neg hc1, if_neg hc2, if_neg (by simp), if_neg hc4, hsome]
  exact ⟨rfl, rfl⟩

/-- C10 witness: one zero-eCPM bid (pCTR 0), organic value 5: the request
is still accepted on the ads path. -/
theorem zero_ecpm_bids_proceed_to_auction_witness :
    (engine_run_auction 50 [engine_bid_zero] (fun _ => 1) 5 true "UNUSED").status =
      "ACCEPTED" ∧
    (engine_run_auction 50 [engine_bid_zero] (fun _ => 1) 5 true "UNUSED").selected_path =
      some "ads" :=
  zero_ecpm_bids_proceed_to_auction 50 [engine_bid_zero] (fun _ => 1) 5 "UNUSED"
    (by norm_num) (by simp)
    (by
      intro b hb
      simp only [List.mem_singleton] at hb
      subst hb
      norm_num [engine_bid_zero])
    (by norm_num)

/-- C7 witness: the contract instantiated on the empty bid set. -/
theorem run_auction_none_iff_empty_witness : run_auction ([] : List Bid) = none :=
  (run_auction_none_iff_empty []).mpr rfl

end AdxEngine
